import Mathlib

/-!
Verification of `jsonschema_pydantic` (file `jsonschema_pydantic/transform.py`):
a recursive compiler from JSON-Schema-shaped dictionaries to dynamically built
pydantic model types.

The embedding is shallow: Python dictionaries/JSON values become the inductive
type `JVal`; the semantic value types produced by the compiler (`str`, `float`,
`List[T]`, `Optional[T]`, `Union[...]`, dynamically created models, ...) become
the inductive type `PType`; Python exceptions become the `Except ConvError`
monad.  Recursion in the source is bounded only by schema nesting depth (the
source has no cycle detection and can hit the interpreter's recursion limit),
so the embedded functions take an explicit fuel parameter; running out of fuel
models stack exhaustion (`ConvError.outOfFuel`).
-/

/-- JSON-like values: the schemas, default values and definition tables that
`jsonschema_to_pydantic` manipulates.  Python `dict`s are modelled as
association lists in insertion order (Python 3.7+ dicts preserve insertion
order, which the source relies on for field order). -/
inductive JVal where
  | null : JVal
  | bool (b : Bool) : JVal
  | num (n : Int) : JVal
  | str (s : String) : JVal
  | arr (elems : List JVal) : JVal
  | obj (entries : List (String × JVal)) : JVal
deriving Repr

/-- The semantic value types the compiler produces.  `model` is a dynamically
created pydantic model: its payload is the class name, the docstring set on it
(`__doc__`, a raw JSON value since the source copies `schema["description"]`
verbatim), and its ordered fields.  Each field is
`(name, (annotation, default, description))` where a `none` default means the
field is required (no default was passed to `Field(...)`) and the description
is the raw value of the property's `description` key if present. -/
inductive PType where
  | str : PType
  | float : PType
  | int : PType
  | bool : PType
  | noneT : PType
  | list (elem : PType) : PType
  | dictStrAny : PType
  | any : PType
  | union (alts : List PType) : PType
  | optional (t : PType) : PType
  | model (title : String) (doc : Option JVal)
      (fields : List (String × PType × Option JVal × Option JVal)) : PType
deriving Repr

/-- One field specification: annotation, default (absent = required with no
default), and the raw `description` value, mirroring the
`(pydantic_type, Field(**field_kwargs))` tuples of the source. -/
abbrev FieldSpec := PType × Option JVal × Option JVal

/-- The exceptions the source can raise.
`unresolvedRef` is the `KeyError` from `definitions[ref_path[-1]]`;
`unsupportedSchema` is `ValueError(f"Unsupported schema: {prop}")`;
`unsupportedVersion` is `ValueError(f"Unsupported version: {version}")`;
`hostTypeError` stands for the host-level `TypeError`/`AttributeError` raised
when a schema value has the wrong Python type (e.g. a non-string `$ref`, a
non-dict `properties` value, an unhashable `type` value used as a dict key);
`outOfFuel` models stack exhaustion of the unbounded recursion. -/
inductive ConvError where
  | unresolvedRef (name : String) : ConvError
  | unsupportedSchema (node : JVal) : ConvError
  | unsupportedVersion (v : Int) : ConvError
  | hostTypeError : ConvError
  | outOfFuel : ConvError
deriving Repr

/-- First-match lookup in an association list: `d[key]` / `d.get(key)` for a
Python dict represented in insertion order. -/
def assocLookup {α : Type} : List (String × α) → String → Option α
  | [], _ => none
  | (k, v) :: rest, key => if k = key then some v else assocLookup rest key

/-- `key in v` / `v.get(key)` on a JSON value: only mappings have keys.
(Python's `in` on strings/lists means substring/element membership; the
compiler is only ever given mapping-shaped nodes by the spec's data model and
that membership semantics is not needed by any claim, so non-mappings simply
have no keys here.) -/
def JVal.lookup : JVal → String → Option JVal
  | .obj entries, key => assocLookup entries key
  | _, _ => none

/-- Python truthiness of a JSON value, used by `if description:` before
setting `model.__doc__`. -/
def truthy : JVal → Bool
  | .null => false
  | .bool b => b
  | .num n => n != 0
  | .str s => !s.isEmpty
  | .arr elems => !elems.isEmpty
  | .obj entries => !entries.isEmpty

/-- `v == "s"` for a JSON value against a Python string literal
(`type_ == "array"`, `type_ == "object"`): equal exactly when `v` is that
string. -/
def jstrEq : JVal → String → Bool
  | .str t, s => t == s
  | _, _ => false

/-- `prop == {}`: a Python value equals the empty dict exactly when it is an
empty dict. -/
def isEmptyObj : JVal → Bool
  | .obj [] => true
  | _ => false

/-- `name in required_fields` for a Python string `name` and list
`required_fields`: membership via `==`, which holds exactly for an element
that is the same string. -/
def containsStr (xs : List JVal) (name : String) : Bool :=
  xs.any (fun x => jstrEq x name)

/-- `prop["$ref"].split("/")[-1]`: the substring after the last `/`
(the whole string when there is no `/`; empty when the string ends in `/`,
exactly as Python's `split`). -/
def lastSegmentAux : List Char → List Char → List Char
  | [], acc => acc
  | c :: cs, acc => if c = '/' then lastSegmentAux cs [] else lastSegmentAux cs (acc ++ [c])

/-- The final segment of a `/`-separated reference path. -/
def lastSegment (s : String) : String := ⟨lastSegmentAux s.data []⟩

/-- The `type_mapping` dict of the source, as a lookup function:
`{"string": str, "number": float, "integer": int, "boolean": bool,
"array": List, "object": Dict[str, Any], "null": None}`.
The `"array"`/`"object"` entries are shadowed by the explicit `if` branches in
`convert_type` (a bare `List` means `List[Any]`); `"null"` maps to the value
`None`, the absent-value annotation. -/
def type_mapping (s : String) : Option PType :=
  if s = "string" then some .str
  else if s = "number" then some .float
  else if s = "integer" then some .int
  else if s = "boolean" then some .bool
  else if s = "array" then some (.list .any)
  else if s = "object" then some .dictStrAny
  else if s = "null" then some .noneT
  else none

/-- `required_fields = schema.get("required", [])`.  A non-list value for
`required` is outside the spec's data model (Python would apply its own
membership semantics to it); it is treated as the empty list here. -/
def requiredOf (entries : List (String × JVal)) : List JVal :=
  match assocLookup entries "required" with
  | some (.arr xs) => xs
  | _ => []

/-- `schema.get("properties", {}).items()`: the ordered property list.
A non-dict `properties` value makes `.items()` raise (`hostTypeError`). -/
def propsOf (entries : List (String × JVal)) :
    Except ConvError (List (String × JVal)) :=
  match assocLookup entries "properties" with
  | some (.obj kvs) => .ok kvs
  | some _ => .error .hostTypeError
  | none => .ok []

/-- `description = schema.get("description", None)` followed by the truthiness
guard `if description: model.__doc__ = description`. -/
def docOf (entries : List (String × JVal)) : Option JVal :=
  match assocLookup entries "description" with
  | some d => if truthy d then some d else none
  | none => none

/-- The body of the per-property loop of `jsonschema_to_pydantic`, given the
already converted type `t` of the property:

```
field_kwargs = {}
if "default" in prop:
    field_kwargs["default"] = prop["default"]
if name not in required_fields:
    pydantic_type = Optional[pydantic_type]
    if "default" not in field_kwargs:
        field_kwargs["default"] = None
if "description" in prop:
    field_kwargs["description"] = prop["description"]
```
-/
def mkFieldSpec (required : List JVal) (name : String) (prop : JVal)
    (t : PType) : FieldSpec :=
  let default0 := prop.lookup "default"
  let td : PType × Option JVal :=
    if containsStr required name then (t, default0)
    else (.optional t, some (default0.getD .null))
  (td.1, td.2, prop.lookup "description")

/-- The property loop: convert each property with `conv` (the `convert_type`
closure) in `properties` order, threading exception propagation.  (Python
`fields` is a dict keyed by the property name; duplicate keys cannot occur in
a Python dict, so the association list is built directly.) -/
def buildFieldsWith (conv : JVal → Except ConvError PType)
    (required : List JVal) :
    List (String × JVal) → Except ConvError (List (String × FieldSpec))
  | [] => .ok []
  | (name, prop) :: rest =>
    match conv prop with
    | .error e => .error e
    | .ok t =>
      match buildFieldsWith conv required rest with
      | .error e => .error e
      | .ok tail => .ok ((name, mkFieldSpec required name prop t) :: tail)

/-- `model = create_model(title, **fields)` plus the `__doc__` assignment:
`title = schema.get("title", "DynamicModel")` is only consumed here, so a
non-string `title` value raises (in `create_model`) only after every field has
converted, which this ordering preserves. -/
def finishModel (entries : List (String × JVal))
    (fields : List (String × FieldSpec)) : Except ConvError PType :=
  match assocLookup entries "title" with
  | some (.str s) => .ok (.model s (docOf entries) fields)
  | some _ => .error .hostTypeError
  | none => .ok (.model "DynamicModel" (docOf entries) fields)

/-- The model-assembly part of `jsonschema_to_pydantic`, parameterized by the
converter used for property nodes (the definitions table and remaining fuel
live inside `conv`).  A non-dict schema raises at the first attribute access
(`schema.get`). -/
def buildModelWith (conv : JVal → Except ConvError PType) :
    JVal → Except ConvError PType
  | .obj entries =>
    (match propsOf entries with
     | .error e => .error e
     | .ok props =>
       match buildFieldsWith conv (requiredOf entries) props with
       | .error e => .error e
       | .ok fields => finishModel entries fields)
  | .null => .error .hostTypeError
  | .bool _ => .error .hostTypeError
  | .num _ => .error .hostTypeError
  | .str _ => .error .hostTypeError
  | .arr _ => .error .hostTypeError

/-- `model.__annotations__` of a generated model: the ordered field-name →
annotation mapping read back during `allOf` merging. -/
def annotationsOf : PType → List (String × PType)
  | .model _ _ fields => fields.map (fun kv => (kv.1, kv.2.1))
  | _ => []

/-- One entry of the base dict after `base.update(upd)`: its value is
replaced when `upd` carries the key. -/
def updateEntry (upd : List (String × PType)) (kv : String × PType) :
    String × PType :=
  match assocLookup upd kv.1 with
  | some v => (kv.1, v)
  | none => kv

/-- Python `dict.update`: keys already in `base` are overwritten in place
(keeping their original position) with the value from `upd`; keys new in
`upd` are appended in `upd`'s order. -/
def dictUpdate (base upd : List (String × PType)) : List (String × PType) :=
  base.map (updateEntry upd)
  ++ upd.filter (fun kv => (assocLookup base kv.1).isNone)

/-- The `allOf` loop:
```
combined_fields = {}
for sub_schema in prop["allOf"]:
    model = jsonschema_to_pydantic(sub_schema, definitions, version=version)
    combined_fields.update(model.__annotations__)
```
`build` is the recursive model build with the inherited definitions table. -/
def allOfFields (build : JVal → Except ConvError PType)
    (acc : List (String × PType)) :
    List JVal → Except ConvError (List (String × PType))
  | [] => .ok acc
  | s :: rest =>
    match build s with
    | .error e => .error e
    | .ok m => allOfFields build (dictUpdate acc (annotationsOf m)) rest

/-- The `anyOf` comprehension
`tuple(convert_type(sub_schema) for sub_schema in prop["anyOf"])`:
left-to-right conversion, first exception aborts. -/
def convertEach (conv : JVal → Except ConvError PType) :
    List JVal → Except ConvError (List PType)
  | [] => .ok []
  | s :: rest =>
    match conv s with
    | .error e => .error e
    | .ok t =>
      match convertEach conv rest with
      | .error e => .error e
      | .ok ts => .ok (t :: ts)

/-- `convert_type(prop)` of the source.  Dispatch order is exactly the
source's: `$ref`, then `type` (with `array`/`object` handled before the
`type_mapping` lookup), then `allOf`, then `anyOf`, then the untyped guard
`prop == {} or "type" not in prop`, else `ValueError`.  The recursive calls
`jsonschema_to_pydantic(node, definitions, version=version)` of the source
always pass the inherited definitions table, in which case the wrapper
performs no re-derivation and reduces to the model assembly; they are
therefore embedded as `buildModelWith (convert_type fuel defs)` (the
reduction is proved as `spec_c5`'s second conjunct). -/
def convert_type : Nat → JVal → JVal → Except ConvError PType
  | 0, _, _ => .error .outOfFuel
  | fuel + 1, defs, prop =>
    match prop.lookup "$ref" with
    | some refVal =>
      -- ref_path = prop["$ref"].split("/"); ref = definitions[ref_path[-1]]
      (match refVal with
       | .str ref =>
         (match defs with
          | .obj entries =>
            (match assocLookup entries (lastSegment ref) with
             | some node => buildModelWith (convert_type fuel defs) node
             | none => .error (.unresolvedRef (lastSegment ref)))
          | _ => .error .hostTypeError)
       | _ => .error .hostTypeError)
    | none =>
      match prop.lookup "type" with
      | some ty =>
        if jstrEq ty "array" then
          -- List[convert_type(prop.get("items", {}))]
          (match convert_type fuel defs ((prop.lookup "items").getD (.obj [])) with
           | .error e => .error e
           | .ok t => .ok (.list t))
        else if jstrEq ty "object" then
          (match prop.lookup "properties" with
           | some _ => buildModelWith (convert_type fuel defs) prop
           | none => .ok .dictStrAny)
        else
          -- type_mapping.get(type_, Any): a string key either hits the dict
          -- or falls back to Any; an unhashable key (list/dict) raises; any
          -- other hashable value misses the dict and falls back to Any.
          (match ty with
           | .str s => .ok ((type_mapping s).getD .any)
           | .arr _ => .error .hostTypeError
           | .obj _ => .error .hostTypeError
           | _ => .ok .any)
      | none =>
        match prop.lookup "allOf" with
        | some (.arr subs) =>
          (match allOfFields (buildModelWith (convert_type fuel defs)) [] subs with
           | .error e => .error e
           | .ok merged =>
             -- create_model("CombinedModel", **combined_fields): bare
             -- annotations, so every merged field is required, with no
             -- default and no description, and no docstring is set.
             .ok (.model "CombinedModel" none
               (merged.map (fun kv => (kv.1, kv.2, none, none)))))
        | some _ => .error .hostTypeError
        | none =>
          match prop.lookup "anyOf" with
          | some (.arr subs) =>
            (match convertEach (convert_type fuel defs) subs with
             | .error e => .error e
             | .ok ts => .ok (.union ts))
          | some _ => .error .hostTypeError
          | none =>
            -- elif prop == {} or "type" not in prop: return Any
            if isEmptyObj prop || (prop.lookup "type").isNone then .ok .any
            else .error (.unsupportedSchema prop)

/-- The pydantic generation selected by the `version` argument (the
`BaseModel, Field, create_model` triple).  The two builders construct models
the same way for the purposes of this development, so the compiled model is
builder-agnostic and the selected builder is reported alongside it. -/
inductive Builder where
  | v1 : Builder
  | v2 : Builder
deriving Repr, BEq

/-- The `version` dispatch at the top of `jsonschema_to_pydantic`:
`if version == 1: ... elif version == 2: ... else: raise ValueError`. -/
def selectBuilder (version : Int) : Option Builder :=
  if version = 1 then some .v1
  else if version = 2 then some .v2
  else none

/-- Derivation of the definitions table at the outermost call:
```
if definitions is None:
    if "$defs" in schema: definitions = schema["$defs"]
    elif "definitions" in schema: definitions = schema["definitions"]
    else: definitions = {}
```
-/
def deriveDefs (schema : JVal) : JVal :=
  match schema.lookup "$defs" with
  | some d => d
  | none =>
    match schema.lookup "definitions" with
    | some d => d
    | none => .obj []

/-- `jsonschema_to_pydantic(schema, definitions=None, version=2)`: validate
the version (before anything touches the schema), derive the definitions
table only when the caller did not supply one, and assemble the model.
Recursive calls in the source re-enter this wrapper with the table supplied
and an already validated version. -/
def jsonschema_to_pydantic (fuel : Nat) (schema : JVal)
    (definitions : Option JVal) (version : Int) :
    Except ConvError (Builder × PType) :=
  match selectBuilder version with
  | none => .error (.unsupportedVersion version)
  | some b =>
    match buildModelWith (convert_type fuel (definitions.getD (deriveDefs schema))) schema with
    | .error e => .error e
    | .ok m => .ok (b, m)

/-- Whether a conversion outcome is the `ValueError("Unsupported schema: ...")`
branch. -/
def ConvError.isUnsupp : ConvError → Bool
  | .unsupportedSchema _ => true
  | _ => false

/-- Whether an outcome succeeded. -/
def isOkE {ε α : Type} : Except ε α → Bool
  | .ok _ => true
  | .error _ => false

/-- Whether a conversion outcome is specifically the unsupported-schema
error. -/
def unsuppOut {α : Type} : Except ConvError α → Bool
  | .error e => e.isUnsupp
  | .ok _ => false

/-- A definition node that itself contains a `$ref` (`#/$defs/Bar`): used to
compare resolving through the root table with re-converting the node as a
fresh top-level schema. -/
def c4_fooNode : JVal :=
  .obj [("properties", .obj [("b", .obj [("$ref", .str "#/$defs/Bar")])])]

/-- A definitions table binding `Foo` (whose body references `Bar`) and
`Bar`. -/
def c4_defsEntries : List (String × JVal) :=
  [("Foo", c4_fooNode), ("Bar", .obj [])]

/-- A property node that is a reference to `Foo`. -/
def c4_refProp : JVal := .obj [("$ref", .str "#/$defs/Foo")]

/-- A root schema whose property `a` is `{"$ref": "#/$defs/Foo"}` and whose
`$defs` table binds `Foo` and `Bar`. -/
def c4_root : JVal :=
  .obj [("$defs", .obj c4_defsEntries),
        ("properties", .obj [("a", c4_refProp)])]

/-- A nested object node that carries its own conflicting `$defs` block: the
compiler must resolve `#/$defs/D` against the root table, ignoring this
node's `$defs`. -/
def c5_prop0 : JVal :=
  .obj [("type", .str "object"),
        ("properties", .obj [("x", .obj [("$ref", .str "#/$defs/D")])]),
        ("$defs", .obj [("D", .obj [("type", .str "string")])])]

/-! ## Helper lemmas -/

/-- A successful model assembly always yields a `model` type (the dynamically
created pydantic class). -/
theorem buildModelWith_ok_model (conv : JVal → Except ConvError PType)
    (s : JVal) (r : PType) (h : buildModelWith conv s = .ok r) :
    ∃ title doc fields, r = .model title doc fields := by
  cases s with
  | obj entries =>
    simp only [buildModelWith] at h
    split at h
    · exact absurd h (by simp)
    · split at h
      · exact absurd h (by simp)
      · unfold finishModel at h
        split at h
        · injection h with h2
          exact ⟨_, _, _, h2.symm⟩
        · exact absurd h (by simp)
        · injection h with h2
          exact ⟨_, _, _, h2.symm⟩
  | null => simp [buildModelWith] at h
  | bool b => simp [buildModelWith] at h
  | num n => simp [buildModelWith] at h
  | str t => simp [buildModelWith] at h
  | arr elems => simp [buildModelWith] at h

/-! ## Claims -/

/-- C1: for every property in `properties`: if the name is not in `required`,
the field type is wrapped `Optional[...]` and a default is attached (the
node's explicit `default` if present, else `None`); if the name is in
`required` and the node carries an explicit `default`, that default is still
attached (and the type left unwrapped); and the property loop records exactly
this field specification. -/
theorem spec_c1 (required : List JVal) (name : String) (prop : JVal)
    (t : PType) (conv : JVal → Except ConvError PType)
    (rest : List (String × JVal)) (hconv : conv prop = .ok t) :
    (containsStr required name = false →
      mkFieldSpec required name prop t =
        (.optional t, some ((prop.lookup "default").getD .null),
         prop.lookup "description")) ∧
    (containsStr required name = true →
      ∀ d, prop.lookup "default" = some d →
        mkFieldSpec required name prop t =
          (t, some d, prop.lookup "description")) ∧
    (buildFieldsWith conv required ((name, prop) :: rest) =
      match buildFieldsWith conv required rest with
      | .error e => .error e
      | .ok tail => .ok ((name, mkFieldSpec required name prop t) :: tail)) := by
  refine ⟨fun h => ?_, fun h d hd => ?_, ?_⟩
  · simp [mkFieldSpec, h]
  · simp [mkFieldSpec, h, hd]
  · simp only [buildFieldsWith, hconv]

/-- C1 witness: a `string`-typed property with an explicit default `"John"`,
once listed as required (default kept, type unwrapped) and once not listed
(type wrapped `Optional`, explicit default kept). -/
theorem spec_c1_witness :
    mkFieldSpec [JVal.str "name"] "name"
      (JVal.obj [("type", .str "string"), ("default", .str "John")]) .str =
      (.str, some (.str "John"), none) ∧
    mkFieldSpec [] "name"
      (JVal.obj [("type", .str "string"), ("default", .str "John")]) .str =
      (.optional .str, some (.str "John"), none) := by
  constructor
  · exact (spec_c1 [JVal.str "name"] "name"
      (JVal.obj [("type", .str "string"), ("default", .str "John")]) .str
      (convert_type 1 (.obj [])) [] rfl).2.1 rfl (.str "John") rfl
  · exact (spec_c1 [] "name"
      (JVal.obj [("type", .str "string"), ("default", .str "John")]) .str
      (convert_type 1 (.obj [])) [] rfl).1 rfl

/-- C2: the Type Converter on a node with a `type` key and no `$ref`:
`string`/`number`/`integer`/`boolean`/`null` map to text / floating-point /
integer / boolean / the absent-value marker; `array` recursively converts the
`items` node (an absent `items` defaulting to accept-anything) and wraps it as
a homogeneous list; `object` builds a nested model when `properties` is
present (and a successful model assembly is always a `model` type), else a
free-form `Dict[str, Any]`. -/
theorem spec_c2 (fuel : Nat) (defs prop : JVal)
    (href : prop.lookup "$ref" = none) :
    (prop.lookup "type" = some (.str "string") →
      convert_type (fuel + 1) defs prop = .ok .str) ∧
    (prop.lookup "type" = some (.str "number") →
      convert_type (fuel + 1) defs prop = .ok .float) ∧
    (prop.lookup "type" = some (.str "integer") →
      convert_type (fuel + 1) defs prop = .ok .int) ∧
    (prop.lookup "type" = some (.str "boolean") →
      convert_type (fuel + 1) defs prop = .ok .bool) ∧
    (prop.lookup "type" = some (.str "null") →
      convert_type (fuel + 1) defs prop = .ok .noneT) ∧
    (prop.lookup "type" = some (.str "array") →
      convert_type (fuel + 1) defs prop =
        match convert_type fuel defs ((prop.lookup "items").getD (.obj [])) with
        | .error e => .error e
        | .ok t => .ok (.list t)) ∧
    (prop.lookup "type" = some (.str "array") → prop.lookup "items" = none →
      convert_type (fuel + 2) defs prop = .ok (.list .any)) ∧
    (prop.lookup "type" = some (.str "object") →
      ∀ q, prop.lookup "properties" = some q →
        convert_type (fuel + 1) defs prop =
          buildModelWith (convert_type fuel defs) prop) ∧
    (prop.lookup "type" = some (.str "object") →
      prop.lookup "properties" = none →
      convert_type (fuel + 1) defs prop = .ok .dictStrAny) ∧
    (∀ conv s r, buildModelWith conv s = .ok r →
      ∃ title doc fields, r = .model title doc fields) := by
  refine ⟨fun h => ?_, fun h => ?_, fun h => ?_, fun h => ?_, fun h => ?_,
    fun h => ?_, fun h hi => ?_, fun h q hq => ?_, fun h hq => ?_,
    buildModelWith_ok_model⟩
  · simp [convert_type, href, h, jstrEq, type_mapping]
  · simp [convert_type, href, h, jstrEq, type_mapping]
  · simp [convert_type, href, h, jstrEq, type_mapping]
  · simp [convert_type, href, h, jstrEq, type_mapping]
  · simp [convert_type, href, h, jstrEq, type_mapping]
  · simp [convert_type, href, h, jstrEq]
  · show convert_type ((fuel + 1) + 1) defs prop = .ok (.list .any)
    have harr : convert_type ((fuel + 1) + 1) defs prop =
        match convert_type (fuel + 1) defs ((prop.lookup "items").getD (.obj [])) with
        | .error e => .error e
        | .ok t => .ok (.list t) := by
      simp [convert_type, href, h, jstrEq]
    have hany : convert_type (fuel + 1) defs (.obj []) = .ok .any := by
      simp [convert_type, JVal.lookup, assocLookup, isEmptyObj]
    rw [harr, hi]
    simp [hany]
  · simp [convert_type, href, h, hq, jstrEq]
  · simp [convert_type, href, h, hq, jstrEq]

/-- C2 witness: concrete conversions of each typed node shape. -/
theorem spec_c2_witness :
    convert_type 1 (.obj []) (.obj [("type", .str "string")]) = .ok .str ∧
    convert_type 1 (.obj []) (.obj [("type", .str "number")]) = .ok .float ∧
    convert_type 1 (.obj []) (.obj [("type", .str "integer")]) = .ok .int ∧
    convert_type 1 (.obj []) (.obj [("type", .str "boolean")]) = .ok .bool ∧
    convert_type 1 (.obj []) (.obj [("type", .str "null")]) = .ok .noneT ∧
    convert_type 2 (.obj []) (.obj [("type", .str "array")]) = .ok (.list .any) ∧
    convert_type 2 (.obj [])
      (.obj [("type", .str "object"),
             ("properties", .obj [("a", .obj [("type", .str "string")])]),
             ("required", .arr [.str "a"])]) =
      .ok (.model "DynamicModel" none [("a", .str, none, none)]) ∧
    convert_type 1 (.obj []) (.obj [("type", .str "object")]) = .ok .dictStrAny := by
  refine ⟨(spec_c2 0 (.obj []) (.obj [("type", .str "string")]) rfl).1 rfl,
    (spec_c2 0 (.obj []) (.obj [("type", .str "number")]) rfl).2.1 rfl,
    (spec_c2 0 (.obj []) (.obj [("type", .str "integer")]) rfl).2.2.1 rfl,
    (spec_c2 0 (.obj []) (.obj [("type", .str "boolean")]) rfl).2.2.2.1 rfl,
    (spec_c2 0 (.obj []) (.obj [("type", .str "null")]) rfl).2.2.2.2.1 rfl,
    (spec_c2 0 (.obj []) (.obj [("type", .str "array")]) rfl).2.2.2.2.2.2.1 rfl rfl,
    ?_,
    (spec_c2 0 (.obj []) (.obj [("type", .str "object")]) rfl).2.2.2.2.2.2.2.2.1 rfl rfl⟩
  · have h := (spec_c2 1 (.obj [])
      (.obj [("type", .str "object"),
             ("properties", .obj [("a", .obj [("type", .str "string")])]),
             ("required", .arr [.str "a"])]) rfl).2.2.2.2.2.2.2.1 rfl
      (.obj [("a", .obj [("type", .str "string")])]) rfl
    exact h.trans rfl

/-- C7: a `$ref` node's reference string is treated as a path whose final
segment is the definition name; when that name is absent from the definitions
table, conversion fails immediately with the lookup error (so no model is
produced). -/
theorem spec_c7 (fuel : Nat) (entries : List (String × JVal)) (prop : JVal)
    (ref : String)
    (href : prop.lookup "$ref" = some (.str ref))
    (habs : assocLookup entries (lastSegment ref) = none) :
    convert_type (fuel + 1) (.obj entries) prop =
      .error (.unresolvedRef (lastSegment ref)) := by
  simp [convert_type, href, habs]

/-- C7 witness: `{"$ref": "#/$defs/Foo"}` against an empty table fails with
the lookup error naming `Foo`, the final path segment. -/
theorem spec_c7_witness :
    convert_type 1 (.obj []) (.obj [("$ref", .str "#/$defs/Foo")]) =
      .error (.unresolvedRef "Foo") :=
  spec_c7 0 [] (.obj [("$ref", .str "#/$defs/Foo")]) "#/$defs/Foo" rfl rfl

/-- C9: a node whose `type` value is a string outside the recognized set
falls through `type_mapping.get(type_, Any)` to the unconstrained `Any`
annotation and raises no error. -/
theorem spec_c9 (fuel : Nat) (defs prop : JVal) (s : String)
    (href : prop.lookup "$ref" = none)
    (htype : prop.lookup "type" = some (.str s))
    (h1 : s ≠ "string") (h2 : s ≠ "number") (h3 : s ≠ "integer")
    (h4 : s ≠ "boolean") (h5 : s ≠ "null") (h6 : s ≠ "array")
    (h7 : s ≠ "object") :
    convert_type (fuel + 1) defs prop = .ok .any := by
  simp [convert_type, href, htype, jstrEq, type_mapping,
    h1, h2, h3, h4, h5, h6, h7]

/-- C9 witness: `{"type": "foo"}` converts to `Any`. -/
theorem spec_c9_witness :
    convert_type 1 (.obj []) (.obj [("type", .str "foo")]) = .ok .any :=
  spec_c9 0 (.obj []) (.obj [("type", .str "foo")]) "foo" rfl rfl
    (by decide) (by decide) (by decide) (by decide) (by decide) (by decide)
    (by decide)

/-- C10: a version other than 1 or 2 is rejected before the schema is
examined (the same error results whatever the schema and definitions
arguments are, so no model is built and no other error can surface first);
for versions 1 and 2 the identical compiler logic runs: version 1 succeeds
with a model exactly when version 2 succeeds with the same model (only the
selected builder differs), and both fail with the same error otherwise. -/
theorem spec_c10 (fuel : Nat) (schema : JVal) (defs : Option JVal)
    (version : Int) :
    (version ≠ 1 → version ≠ 2 →
      jsonschema_to_pydantic fuel schema defs version =
        .error (.unsupportedVersion version)) ∧
    (∀ b m, jsonschema_to_pydantic fuel schema defs 1 = .ok (b, m) →
      b = .v1 ∧ jsonschema_to_pydantic fuel schema defs 2 = .ok (.v2, m)) ∧
    (∀ e, jsonschema_to_pydantic fuel schema defs 1 = .error e ↔
      jsonschema_to_pydantic fuel schema defs 2 = .error e) := by
  refine ⟨fun hv1 hv2 => ?_, fun b m h => ?_, fun e => ?_⟩
  · simp [jsonschema_to_pydantic, selectBuilder, hv1, hv2]
  · simp only [jsonschema_to_pydantic, selectBuilder] at h ⊢
    norm_num at h ⊢
    cases hc : buildModelWith
        (convert_type fuel (defs.getD (deriveDefs schema))) schema with
    | error e => rw [hc] at h; exact absurd h (by simp)
    | ok m2 =>
      rw [hc] at h
      injection h with h
      injection h with hb hm
      exact ⟨hb.symm, by simp [hm]⟩
  · simp only [jsonschema_to_pydantic, selectBuilder]
    norm_num
    cases hc : buildModelWith
        (convert_type fuel (defs.getD (deriveDefs schema))) schema with
    | error e2 => simp
    | ok m2 => simp

/-- C10 witness: version 3 is rejected on a schema that would otherwise fail
with an unresolved reference, and version 1's successful compilation of an
empty schema is mirrored by version 2 up to the selected builder. -/
theorem spec_c10_witness :
    jsonschema_to_pydantic 2
      (.obj [("properties", .obj [("a", .obj [("$ref", .str "#/x/Missing")])])])
      none 3 = .error (.unsupportedVersion 3) ∧
    jsonschema_to_pydantic 2 (.obj []) none 2 =
      .ok (.v2, .model "DynamicModel" none []) := by
  constructor
  · exact (spec_c10 2
      (.obj [("properties", .obj [("a", .obj [("$ref", .str "#/x/Missing")])])])
      none 3).1 (by decide) (by decide)
  · exact ((spec_c10 2 (.obj []) none 0).2.1 .v1
      (.model "DynamicModel" none []) rfl).2

/-- Shape of a successful `anyOf` comprehension: one converted type per
sub-schema, in order. -/
theorem convertEach_ok (conv : JVal → Except ConvError PType) :
    ∀ (subs : List JVal) (ts : List PType), convertEach conv subs = .ok ts →
      ts.length = subs.length ∧
      ∀ i (hi : i < subs.length) (hti : i < ts.length),
        conv (subs.get ⟨i, hi⟩) = .ok (ts.get ⟨i, hti⟩) := by
  intro subs
  induction subs with
  | nil =>
    intro ts h
    simp only [convertEach] at h
    injection h with h
    subst h
    refine ⟨rfl, ?_⟩
    intro i hi
    exact absurd hi (by simp)
  | cons s rest ih =>
    intro ts h
    simp only [convertEach] at h
    cases hcs : conv s with
    | error e => rw [hcs] at h; exact absurd h (by simp)
    | ok t =>
      rw [hcs] at h
      cases hr : convertEach conv rest with
      | error e => rw [hr] at h; exact absurd h (by simp)
      | ok ts2 =>
        rw [hr] at h
        injection h with h
        subst h
        obtain ⟨hlen, hidx⟩ := ih ts2 hr
        refine ⟨by simp [hlen], ?_⟩
        intro i hi hti
        cases i with
        | zero => simpa using hcs
        | succ j =>
          exact hidx j (by simpa using hi) (by simpa using hti)

/-- C8: a node with an `anyOf` list (and no `$ref`, `type` or `allOf`)
converts each sub-schema node independently, left to right, and returns the
union over exactly those alternatives: on success the result list has one
converted type per sub-schema, at the same position. -/
theorem spec_c8 (fuel : Nat) (defs prop : JVal) (subs : List JVal)
    (href : prop.lookup "$ref" = none)
    (htype : prop.lookup "type" = none)
    (hallof : prop.lookup "allOf" = none)
    (hanyof : prop.lookup "anyOf" = some (.arr subs)) :
    (convert_type (fuel + 1) defs prop =
      match convertEach (convert_type fuel defs) subs with
      | .error e => .error e
      | .ok ts => .ok (.union ts)) ∧
    (∀ (conv : JVal → Except ConvError PType) (ts : List PType),
      convertEach conv subs = .ok ts →
      ts.length = subs.length ∧
      ∀ i (hi : i < subs.length) (hti : i < ts.length),
        conv (subs.get ⟨i, hi⟩) = .ok (ts.get ⟨i, hti⟩)) := by
  refine ⟨?_, fun conv => convertEach_ok conv subs⟩
  simp [convert_type, href, htype, hallof, hanyof]

/-- C8 witness: `{"anyOf": [{"type": "string"}, {"type": "null"}]}` becomes
`Union[str, None]`, and the first alternative's conversion is recovered at
index 0. -/
theorem spec_c8_witness :
    convert_type 2 (.obj [])
      (.obj [("anyOf", .arr [.obj [("type", .str "string")],
                             .obj [("type", .str "null")]])]) =
      .ok (.union [.str, .noneT]) ∧
    convert_type 1 (.obj [])
      ([JVal.obj [("type", .str "string")],
        JVal.obj [("type", .str "null")]].get ⟨0, by decide⟩) = .ok .str := by
  constructor
  · exact ((spec_c8 1 (.obj [])
      (.obj [("anyOf", .arr [.obj [("type", .str "string")],
                             .obj [("type", .str "null")]])])
      [.obj [("type", .str "string")], .obj [("type", .str "null")]]
      rfl rfl rfl rfl).1).trans rfl
  · exact (((spec_c8 1 (.obj [])
      (.obj [("anyOf", .arr [.obj [("type", .str "string")],
                             .obj [("type", .str "null")]])])
      [.obj [("type", .str "string")], .obj [("type", .str "null")]]
      rfl rfl rfl rfl).2) (convert_type 1 (.obj [])) [.str, .noneT] rfl).2
      0 (by decide) (by decide)

/-- C4 counterexample: with the root table `{Foo: {properties: {b: {"$ref":
"#/$defs/Bar"}}}, Bar: {}}`, the schema whose property `a` is
`{"$ref": "#/$defs/Foo"}` compiles successfully (the nested `Bar` reference
resolves against the root table), but converting `Foo`'s definition node
directly as a top-level schema fails with an unresolved `Bar` reference
(a fresh top-level call re-derives an empty table from `Foo`'s node), so the
two results are not structurally identical. -/
theorem spec_c4_counterexample :
    isOkE (jsonschema_to_pydantic 10 c4_root none 2) = true ∧
    jsonschema_to_pydantic 10 c4_fooNode none 2 =
      .error (.unresolvedRef "Bar") := ⟨rfl, rfl⟩

/-- C4 (amended): converting a property `{"$ref": ".../Foo"}` produces
exactly the result of converting `Foo`'s definition node as a top-level
schema *with the root definitions table supplied as the `definitions`
argument* (builder tag aside); without that argument a fresh top-level call
re-derives the table from `Foo`'s own node and need not be identical. -/
theorem spec_c4 (fuel : Nat) (entries : List (String × JVal)) (prop : JVal)
    (ref : String) (node : JVal)
    (href : prop.lookup "$ref" = some (.str ref))
    (hdef : assocLookup entries (lastSegment ref) = some node) :
    convert_type (fuel + 1) (.obj entries) prop =
      match jsonschema_to_pydantic fuel node (some (.obj entries)) 2 with
      | .error e => .error e
      | .ok bm => .ok bm.2 := by
  simp only [convert_type, href, hdef]
  simp only [jsonschema_to_pydantic, selectBuilder]
  norm_num
  cases hc : buildModelWith (convert_type fuel (.obj entries)) node with
  | error e => simp
  | ok m => simp

/-- C4 witness: resolving `#/$defs/Foo` through the table equals the
top-level conversion of `Foo`'s node with that same table supplied. -/
theorem spec_c4_witness :
    convert_type 10 (.obj c4_defsEntries) c4_refProp =
      match jsonschema_to_pydantic 9 c4_fooNode (some (.obj c4_defsEntries)) 2 with
      | .error e => .error e
      | .ok bm => .ok bm.2 :=
  spec_c4 9 c4_defsEntries c4_refProp "#/$defs/Foo" c4_fooNode rfl rfl

/-- C5: the definitions table is derived exactly once, at the outermost call,
and only when the caller supplies none: from the root's `$defs` if present,
else from `definitions`, else empty; and the recursive conversions — nested
objects, `$ref` targets and `allOf` sub-schemas — all receive the caller's
table `d` unchanged, never re-deriving one from the nested node. -/
theorem spec_c5 (fuel : Nat) (schema d prop : JVal) :
    (jsonschema_to_pydantic fuel schema none 2 =
      match buildModelWith (convert_type fuel (deriveDefs schema)) schema with
      | .error e => .error e
      | .ok m => .ok (.v2, m)) ∧
    (jsonschema_to_pydantic fuel schema (some d) 2 =
      match buildModelWith (convert_type fuel d) schema with
      | .error e => .error e
      | .ok m => .ok (.v2, m)) ∧
    (∀ dd, schema.lookup "$defs" = some dd → deriveDefs schema = dd) ∧
    (schema.lookup "$defs" = none →
      ∀ dd, schema.lookup "definitions" = some dd → deriveDefs schema = dd) ∧
    (schema.lookup "$defs" = none → schema.lookup "definitions" = none →
      deriveDefs schema = .obj []) ∧
    (prop.lookup "$ref" = none → prop.lookup "type" = some (.str "object") →
      ∀ q, prop.lookup "properties" = some q →
        convert_type (fuel + 1) d prop =
          buildModelWith (convert_type fuel d) prop) ∧
    (∀ entries ref node, prop.lookup "$ref" = some (.str ref) →
      assocLookup entries (lastSegment ref) = some node →
      convert_type (fuel + 1) (.obj entries) prop =
        buildModelWith (convert_type fuel (.obj entries)) node) ∧
    (prop.lookup "$ref" = none → prop.lookup "type" = none →
      ∀ subs, prop.lookup "allOf" = some (.arr subs) →
        convert_type (fuel + 1) d prop =
          match allOfFields (buildModelWith (convert_type fuel d)) [] subs with
          | .error e => .error e
          | .ok merged => .ok (.model "CombinedModel" none
              (merged.map (fun kv => (kv.1, kv.2, none, none))))) := by
  refine ⟨?_, ?_, fun dd h => ?_, fun h1 dd h2 => ?_, fun h1 h2 => ?_,
    fun h1 h2 q h3 => ?_, fun entries ref node h1 h2 => ?_,
    fun h1 h2 subs h3 => ?_⟩
  · simp [jsonschema_to_pydantic, selectBuilder]
  · simp [jsonschema_to_pydantic, selectBuilder]
  · simp [deriveDefs, h]
  · simp [deriveDefs, h1, h2]
  · simp [deriveDefs, h1, h2]
  · simp [convert_type, h1, h2, h3, jstrEq]
  · simp [convert_type, h1, h2]
  · simp [convert_type, h1, h2, h3]

/-- C5 witness: with both blocks present `$defs` wins; a nested object node
carrying its own conflicting `$defs` block still resolves its reference
against the root table (here root `D` is the empty schema, so `x` gets the
empty dynamic model, not a text field as the nested block would give). -/
theorem spec_c5_witness :
    deriveDefs (.obj [("$defs", .str "A"), ("definitions", .str "B")]) =
      .str "A" ∧
    deriveDefs (.obj [("definitions", .str "B")]) = .str "B" ∧
    convert_type 3 (.obj [("D", .obj [])]) c5_prop0 =
      .ok (.model "DynamicModel" none
        [("x", .optional (.model "DynamicModel" none []), some .null, none)]) := by
  refine ⟨(spec_c5 0 (.obj [("$defs", .str "A"), ("definitions", .str "B")])
      (.obj []) (.obj [])).2.2.1 (.str "A") rfl,
    (spec_c5 0 (.obj [("definitions", .str "B")])
      (.obj []) (.obj [])).2.2.2.1 rfl (.str "B") rfl,
    ?_⟩
  exact ((spec_c5 2 (.obj []) (.obj [("D", .obj [])]) c5_prop0).2.2.2.2.2.1
    rfl rfl (.obj [("x", .obj [("$ref", .str "#/$defs/D")])]) rfl).trans rfl

/-- Lookup distributes over list append, preferring the left list. -/
theorem assocLookup_append {α : Type} (xs ys : List (String × α)) (k : String) :
    assocLookup (xs ++ ys) k =
      match assocLookup xs k with
      | some v => some v
      | none => assocLookup ys k := by
  induction xs with
  | nil => rfl
  | cons kv rest ih =>
    by_cases h : kv.1 = k
    · simp [assocLookup, h]
    · simp [assocLookup, h, ih]

/-- Lookup in the overridden copy of `base`: present exactly for keys of
`base`, with the value replaced by `upd`'s when `upd` has the key. -/
theorem assocLookup_map_override (base upd : List (String × PType))
    (k : String) :
    assocLookup (base.map (updateEntry upd)) k =
      match assocLookup base k with
      | some v =>
        some (match assocLookup upd k with
              | some w => w
              | none => v)
      | none => none := by
  induction base with
  | nil => rfl
  | cons kv rest ih =>
    obtain ⟨k1, v1⟩ := kv
    by_cases hk : k1 = k
    · subst hk
      cases hu : assocLookup upd k1 <;> simp [assocLookup, updateEntry, hu]
    · cases hu : assocLookup upd k1 <;>
        simp [assocLookup, updateEntry, hu, hk, ih]

/-- Lookup in the filtered copy of `upd` (keys new relative to `base`):
`none` when `base` already has the key, else `upd`'s first match. -/
theorem assocLookup_filter_new {α : Type} (base upd : List (String × α))
    (k : String) :
    assocLookup (upd.filter (fun kv => (assocLookup base kv.1).isNone)) k =
      match assocLookup base k with
      | some _ => none
      | none => assocLookup upd k := by
  induction upd with
  | nil => cases assocLookup base k <;> rfl
  | cons kv rest ih =>
    obtain ⟨k1, v1⟩ := kv
    by_cases hk : k1 = k
    · subst hk
      cases hb : assocLookup base k1 <;>
        simp [List.filter, assocLookup, hb, ih]
    · cases hb : assocLookup base k1 <;>
        simp [List.filter, assocLookup, hb, hk, ih]

/-- `dict.update` semantics on lookups: the updating dict wins on a shared
key, the base provides the rest. -/
theorem assocLookup_dictUpdate (base upd : List (String × PType))
    (k : String) :
    assocLookup (dictUpdate base upd) k =
      match assocLookup upd k with
      | some v => some v
      | none => assocLookup base k := by
  unfold dictUpdate
  rw [assocLookup_append, assocLookup_map_override, assocLookup_filter_new]
  cases hb : assocLookup base k <;> cases hu : assocLookup upd k <;> simp

/-- `{}.update(x)` is `x`. -/
theorem dictUpdate_nil (upd : List (String × PType)) :
    dictUpdate [] upd = upd := by
  simp [dictUpdate, assocLookup]

/-- The `allOf` fold over exactly two sub-schemas whose builds succeed. -/
theorem allOfFields_pair (build : JVal → Except ConvError PType)
    (s1 s2 : JVal) (m1 m2 : PType)
    (h1 : build s1 = .ok m1) (h2 : build s2 = .ok m2) :
    allOfFields build [] [s1, s2] =
      .ok (dictUpdate (annotationsOf m1) (annotationsOf m2)) := by
  simp [allOfFields, h1, h2, dictUpdate_nil]

/-- C6: a node with an `allOf` list (and no `$ref` or `type`) builds each
sub-schema's own model and merges their field-name → annotation maps into
one synthetic `CombinedModel`; the merge is Python `dict.update`, so on a
shared field name a later sub-schema's annotation wins, and a field name is
present in the merge exactly when some sub-schema declares it (for two
disjoint sub-schemas: the union of both field sets). -/
theorem spec_c6 (fuel : Nat) (defs prop : JVal) (subs : List JVal)
    (href : prop.lookup "$ref" = none)
    (htype : prop.lookup "type" = none)
    (hallof : prop.lookup "allOf" = some (.arr subs)) :
    (convert_type (fuel + 1) defs prop =
      match allOfFields (buildModelWith (convert_type fuel defs)) [] subs with
      | .error e => .error e
      | .ok merged => .ok (.model "CombinedModel" none
          (merged.map (fun kv => (kv.1, kv.2, none, none))))) ∧
    (∀ (build : JVal → Except ConvError PType) (s1 s2 : JVal) (m1 m2 : PType),
      build s1 = .ok m1 → build s2 = .ok m2 →
      allOfFields build [] [s1, s2] =
        .ok (dictUpdate (annotationsOf m1) (annotationsOf m2))) ∧
    (∀ (base upd : List (String × PType)) (k : String),
      assocLookup (dictUpdate base upd) k =
        match assocLookup upd k with
        | some v => some v
        | none => assocLookup base k) ∧
    (∀ (base upd : List (String × PType)) (k : String),
      (assocLookup (dictUpdate base upd) k).isSome =
        ((assocLookup base k).isSome || (assocLookup upd k).isSome)) := by
  refine ⟨?_, allOfFields_pair, assocLookup_dictUpdate, fun base upd k => ?_⟩
  · simp [convert_type, href, htype, hallof]
  · rw [assocLookup_dictUpdate]
    cases assocLookup base k <;> cases assocLookup upd k <;> simp

/-- C6 witness: `allOf` of `{a: str, b: int}` and `{b: bool, c: float}`
merges to `CombinedModel` with fields `a`, `b`, `c` where the later
sub-schema's `bool` wins for `b` (and the disjoint names `a`, `c` are both
present). -/
theorem spec_c6_witness :
    convert_type 3 (.obj [])
      (.obj [("allOf", .arr [
        .obj [("properties", .obj [("a", .obj [("type", .str "string")]),
                                   ("b", .obj [("type", .str "integer")])]),
              ("required", .arr [.str "a", .str "b"])],
        .obj [("properties", .obj [("b", .obj [("type", .str "boolean")]),
                                   ("c", .obj [("type", .str "number")])]),
              ("required", .arr [.str "b", .str "c"])]])]) =
      .ok (.model "CombinedModel" none
        [("a", .str, none, none), ("b", .bool, none, none),
         ("c", .float, none, none)]) := by
  exact ((spec_c6 2 (.obj [])
    (.obj [("allOf", .arr [
      .obj [("properties", .obj [("a", .obj [("type", .str "string")]),
                                 ("b", .obj [("type", .str "integer")])]),
            ("required", .arr [.str "a", .str "b"])],
      .obj [("properties", .obj [("b", .obj [("type", .str "boolean")]),
                                 ("c", .obj [("type", .str "number")])]),
            ("required", .arr [.str "b", .str "c"])]])])
    [.obj [("properties", .obj [("a", .obj [("type", .str "string")]),
                                ("b", .obj [("type", .str "integer")])]),
           ("required", .arr [.str "a", .str "b"])],
     .obj [("properties", .obj [("b", .obj [("type", .str "boolean")]),
                                ("c", .obj [("type", .str "number")])]),
           ("required", .arr [.str "b", .str "c"])]]
    rfl rfl rfl).1).trans rfl

/-- `propsOf` only fails with the host type error. -/
theorem propsOf_error (entries : List (String × JVal)) (e : ConvError)
    (h : propsOf entries = .error e) : e = .hostTypeError := by
  unfold propsOf at h
  split at h
  · exact absurd h (by simp)
  · injection h with h; exact h.symm
  · exact absurd h (by simp)

/-- `finishModel` never raises the unsupported-schema error. -/
theorem unsuppOut_finishModel (entries : List (String × JVal))
    (fields : List (String × FieldSpec)) :
    unsuppOut (finishModel entries fields) = false := by
  unfold finishModel
  split <;> rfl

/-- The property loop never raises the unsupported-schema error when its
converter does not. -/
theorem unsuppOut_buildFieldsWith (conv : JVal → Except ConvError PType)
    (required : List JVal)
    (hconv : ∀ p, unsuppOut (conv p) = false) :
    ∀ props, unsuppOut (buildFieldsWith conv required props) = false := by
  intro props
  induction props with
  | nil => rfl
  | cons kv rest ih =>
    obtain ⟨name, prop⟩ := kv
    simp only [buildFieldsWith]
    cases hc : conv prop with
    | error e => have h := hconv prop; rw [hc] at h; exact h
    | ok t =>
      cases hr : buildFieldsWith conv required rest with
      | error e => rw [hr] at ih; exact ih
      | ok tail => rfl

/-- The model assembly never raises the unsupported-schema error when its
converter does not. -/
theorem unsuppOut_buildModelWith (conv : JVal → Except ConvError PType)
    (hconv : ∀ p, unsuppOut (conv p) = false) (s : JVal) :
    unsuppOut (buildModelWith conv s) = false := by
  cases s with
  | obj entries =>
    simp only [buildModelWith]
    split
    · rename_i e hp
      rw [propsOf_error entries e hp]
      rfl
    · rename_i props hp
      split
      · rename_i e hf
        have h := unsuppOut_buildFieldsWith conv (requiredOf entries) hconv props
        rw [hf] at h
        exact h
      · rename_i fields hf
        exact unsuppOut_finishModel entries fields
  | null => rfl
  | bool b => rfl
  | num n => rfl
  | str t => rfl
  | arr elems => rfl

/-- The `allOf` fold never raises the unsupported-schema error when the
model build does not. -/
theorem unsuppOut_allOfFields (build : JVal → Except ConvError PType)
    (hb : ∀ s, unsuppOut (build s) = false) :
    ∀ subs acc, unsuppOut (allOfFields build acc subs) = false := by
  intro subs
  induction subs with
  | nil => intro acc; rfl
  | cons s rest ih =>
    intro acc
    simp only [allOfFields]
    cases hc : build s with
    | error e => have h := hb s; rw [hc] at h; exact h
    | ok m => exact ih _

/-- The `anyOf` comprehension never raises the unsupported-schema error when
the converter does not. -/
theorem unsuppOut_convertEach (conv : JVal → Except ConvError PType)
    (hconv : ∀ p, unsuppOut (conv p) = false) :
    ∀ subs, unsuppOut (convertEach conv subs) = false := by
  intro subs
  induction subs with
  | nil => rfl
  | cons s rest ih =>
    simp only [convertEach]
    cases hc : conv s with
    | error e => have h := hconv s; rw [hc] at h; exact h
    | ok t =>
      cases hr : convertEach conv rest with
      | error e => rw [hr] at ih; exact ih
      | ok ts => rfl

/-- The Type Converter never raises the unsupported-schema `ValueError`:
every node lacking `$ref`, `type`, `allOf` and `anyOf` satisfies the guard
`prop == {} or "type" not in prop`, so the final `else` is dead code. -/
theorem unsuppOut_convert_type :
    ∀ (fuel : Nat) (defs prop : JVal),
      unsuppOut (convert_type fuel defs prop) = false := by
  intro fuel
  induction fuel with
  | zero => intro defs prop; rfl
  | succ f ih =>
    intro defs prop
    have hconv : ∀ p, unsuppOut (convert_type f defs p) = false :=
      fun p => ih defs p
    simp only [convert_type]
    split
    · -- "$ref" present
      split
      · -- string reference
        split
        · -- the definitions value is a dict
          split
          · -- name found: recurse into the model assembly
            exact unsuppOut_buildModelWith _ (fun p => ih _ p) _
          · rfl
        · rfl
      · rfl
    · -- no "$ref"
      split
      · -- "type" present
        split
        · -- array: recurse into items
          split
          · rename_i e hc
            have h := hconv ((prop.lookup "items").getD (.obj []))
            rw [hc] at h
            exact h
          · rfl
        · split
          · -- object
            split
            · exact unsuppOut_buildModelWith _ hconv prop
            · rfl
          · -- type_mapping fallback and host errors
            split <;> rfl
      · rename_i htype
        split
        · -- allOf list
          rename_i subs hall
          split
          · rename_i e hm
            have h := unsuppOut_allOfFields
              (buildModelWith (convert_type f defs))
              (fun s => unsuppOut_buildModelWith _ hconv s) subs []
            rw [hm] at h
            exact h
          · rfl
        · rfl
        · split
          · -- anyOf list
            rename_i subs hany
            split
            · rename_i e hm
              have h := unsuppOut_convertEach (convert_type f defs) hconv subs
              rw [hm] at h
              exact h
            · rfl
          · rfl
          · -- untyped guard: always true here since "type" is absent
            split
            · rfl
            · rename_i hguard
              rw [htype] at hguard
              simp at hguard

/-- C3 counterexample: the node `{"label": "Value"}` matches none of the
recognized dispatch cases 1–4 (no `$ref`, no `type`, no `allOf`, no `anyOf`)
and is not the empty node, yet the Type Converter does not raise the
unsupported-schema `ValueError` on it — it returns accept-anything.  (The
guard `prop == {} or "type" not in prop` is satisfied by every node reaching
it, since its second disjunct is automatic once the `type` branch was not
taken, so the error branch is unreachable; `unsuppOut_convert_type` proves
this for all inputs.) -/
theorem spec_c3_counterexample :
    (JVal.obj [("label", .str "Value")]).lookup "$ref" = none ∧
    (JVal.obj [("label", .str "Value")]).lookup "type" = none ∧
    (JVal.obj [("label", .str "Value")]).lookup "allOf" = none ∧
    (JVal.obj [("label", .str "Value")]).lookup "anyOf" = none ∧
    isEmptyObj (.obj [("label", .str "Value")]) = false ∧
    convert_type 1 (.obj []) (.obj [("label", .str "Value")]) = .ok .any ∧
    unsuppOut (convert_type 1 (.obj []) (.obj [("label", .str "Value")])) =
      false :=
  ⟨rfl, rfl, rfl, rfl, rfl, rfl, rfl⟩

/-- C3 (amended): no schema node matches none of the recognized dispatch
cases: every node with no `$ref`, no `type`, no `allOf` and no `anyOf` is
caught by the untyped/empty case and converts to accept-anything, so the
unsupported-schema `ValueError` branch is dead code and is never raised. -/
theorem spec_c3 (fuel : Nat) (defs prop : JVal)
    (h1 : prop.lookup "$ref" = none) (h2 : prop.lookup "type" = none)
    (h3 : prop.lookup "allOf" = none) (h4 : prop.lookup "anyOf" = none) :
    convert_type (fuel + 1) defs prop = .ok .any := by
  simp [convert_type, h1, h2, h3, h4]

/-- C3 witness: the untyped, non-empty node `{"label": "Value", "default":
"output"}` (from the repository's own tests) converts to accept-anything
rather than raising. -/
theorem spec_c3_witness :
    convert_type 1 (.obj [])
      (.obj [("label", .str "Value"), ("default", .str "output")]) =
      .ok .any :=
  spec_c3 0 (.obj [])
    (.obj [("label", .str "Value"), ("default", .str "output")])
    rfl rfl rfl rfl
